import Mathlib

/-!
Verification of the pwebby image-gallery web application (src/app.py).

The application stores image rows in a single SQL table and serves HTTP
routes for listing (with pagination), uploading, deleting and bulk-populating
images.  This file gives a shallow embedding of the parts of src/app.py that
the verified properties speak about:

* rows of the images table and the table itself (a list of rows, in
  insertion order, as produced by INSERT statements);
* the 100-row cap enforcement (maintain_image_limit);
* upload validation (validate_image) and the two upload routes;
* pagination arithmetic of the index route;
* the delete route;
* the PostgreSQL-to-SQLite connection fallback (get_db_connection);
* the populate worker loop, its progress record, and the start/stop routes.

Python strings that the code inspects character by character (filenames,
extensions, the ALLOWED_EXTENSIONS configuration string) are modelled as
character lists; fixed message strings are Lean string literals.  Timestamps
are naturals (CURRENT_TIMESTAMP at insertion time), and byte payloads are
lists of naturals.  External effects (the PIL image decoder, network
downloads, the database drivers) are modelled by boolean outcomes supplied
as parameters, since the code only branches on their success.
-/

namespace Pwebby

/-- Value stored in the image_data column.  SQLite is dynamically typed, so
an INSERT may store either a binary blob or a text string in this column;
the index route of src/app.py explicitly checks both cases with
isinstance(row, str). -/
inductive ImgPayload where
  | binary (bytes : List Nat)
  | text (chars : List Char)
deriving DecidableEq

/-- Whether the stored payload is binary (a blob) rather than text. -/
def ImgPayload.isBinary : ImgPayload → Bool
  | .binary _ => true
  | .text _ => false

/-- A row of the images table: id, filename, image_data, content_type,
description (nullable), upload_date (defaulting to insertion time). -/
structure Row where
  id : Nat
  filename : List Char
  image_data : ImgPayload
  content_type : List Char
  description : Option (List Char)
  upload_date : Nat
deriving DecidableEq

/-- Comparison used by ORDER BY upload_date DESC: a comes before b when a's
upload_date is at least b's. -/
def dateGE (a b : Row) : Prop := b.upload_date ≤ a.upload_date

/-- Strictly increasing upload dates (insertion happened strictly later). -/
def dateLT (a b : Row) : Prop := a.upload_date < b.upload_date

instance : DecidableRel dateGE := fun a b => Nat.decLe b.upload_date a.upload_date

instance : IsTotal Row dateGE := ⟨fun a b => Nat.le_total b.upload_date a.upload_date⟩

instance : IsTrans Row dateGE := ⟨fun _ _ _ h1 h2 => Nat.le_trans h2 h1⟩

/-- The row sequence produced by SELECT ... ORDER BY upload_date DESC. -/
def sortByDateDesc (db : List Row) : List Row := List.insertionSort dateGE db

/-- maintain_image_limit of src/app.py: DELETE FROM images WHERE id NOT IN
(SELECT id FROM images ORDER BY upload_date DESC LIMIT 100).  The surviving
rows are those whose id is among the ids of the 100 most recent rows. -/
def maintain_image_limit (db : List Row) : List Row :=
  let keep := ((sortByDateDesc db).take 100).map Row.id
  db.filter (fun r => decide (r.id ∈ keep))

/-- An uploaded file as seen by the Flask routes: werkzeug filename, the raw
bytes of file.read(), the declared content type, and whether PIL's
Image.open/verify succeeds on the stream (the only fact the code uses). -/
structure UFile where
  filename : List Char
  content : List Nat
  content_type : List Char
  decodes_ok : Bool
deriving DecidableEq

/-- Python's str.split(sep) for a single-character separator: always returns
at least one (possibly empty) piece, and a trailing separator yields a final
empty piece. -/
def pySplit (sep : Char) : List Char → List (List Char)
  | [] => [[]]
  | c :: cs =>
    match pySplit sep cs with
    | [] => [[]]
    | w :: ws => if c = sep then [] :: w :: ws else (c :: w) :: ws

/-- ALLOWED_EXTENSIONS of src/app.py: the configuration string (environment
variable ALLOWED_EXTENSIONS, default jpg,jpeg,png,gif) split on commas. -/
def allowedExtensionsOf (env : List Char) : List (List Char) := pySplit ',' env

/-- The default ALLOWED_EXTENSIONS configuration string. -/
def defaultAllowedEnv : List Char := ['j','p','g',',','j','p','e','g',',','p','n','g',',','g','i','f']

/-- The extension computed by validate_image:
filename.rsplit('.', 1)[1].lower() if '.' in filename else ''. -/
def file_extension (filename : List Char) : List Char :=
  if '.' ∈ filename then
    ((filename.reverse.takeWhile (fun c => c ≠ '.')).reverse).map Char.toLower
  else []

/-- Outcome of validate_image: the (valid, message) pair the function
returns, plus whether control reached the PIL decoding step (Image.open /
verify), which the code only reaches after the extension check passes. -/
structure ValidationOutcome where
  valid : Bool
  message : String
  decode_attempted : Bool
deriving DecidableEq

/-- The flash/JSON message for a disallowed extension (the Python code
interpolates the upper-cased, comma-joined allowed set). -/
def invalid_type_message (allowed : List (List Char)) : String :=
  "Invalid file type. Only " ++
    (String.intercalate (", ") (allowed.map (fun e => (e.map Char.toUpper).asString))) ++
    " files are allowed"

/-- validate_image of src/app.py: reject a missing or empty filename, then
reject a filename whose extension is not in ALLOWED_EXTENSIONS, and only
then attempt to decode the bytes with PIL. -/
def validate_image (allowed : List (List Char)) (file : Option UFile) : ValidationOutcome :=
  match file with
  | none => ⟨false, "No file selected", false⟩
  | some f =>
    if f.filename = [] then ⟨false, "No file selected", false⟩
    else if file_extension f.filename ∈ allowed then
      (if f.decodes_ok then ⟨true, "Valid image", true⟩
       else ⟨false, "Invalid image file", true⟩)
    else ⟨false, invalid_type_message allowed, false⟩

/-- The row inserted by the upload routes: INSERT INTO images
(filename, image_data, content_type) VALUES (...) with image_data the raw
bytes of file.read(); description is NULL and upload_date defaults. -/
def mkUploadRow (id : Nat) (f : UFile) (now : Nat) : Row :=
  ⟨id, f.filename, .binary f.content, f.content_type, none, now⟩

/-- The table effect shared by both upload routes: INSERT the new row, then
call maintain_image_limit. -/
def uploadStep (db : List Row) (r : Row) : List Row := maintain_image_limit (db ++ [r])

/-- Result of the HTML upload route: a flashed error with a redirect back to
the form, or the success flash with a redirect to the index. -/
inductive UploadResult where
  | errorRedirect (msg : String)
  | successRedirect
deriving DecidableEq

/-- Whether the upload route rejected the request. -/
def UploadResult.isError : UploadResult → Bool
  | .errorRedirect _ => true
  | .successRedirect => false

/-- POST /upload of src/app.py: missing file part or failed validation flash
an error and leave the table alone; otherwise the row is inserted and the
100-row limit maintained. -/
def upload_post (allowed : List (List Char)) (db : List Row) (freshId now : Nat)
    (file : Option UFile) : List Row × UploadResult :=
  match file with
  | none => (db, .errorRedirect ("No file selected"))
  | some f =>
    let v := validate_image allowed (some f)
    if v.valid then (uploadStep db (mkUploadRow freshId f now), .successRedirect)
    else (db, .errorRedirect v.message)

/-- Result of the JSON upload route: an error body with an HTTP status, or
the created body (HTTP 201) carrying the new row id. -/
inductive ApiResult where
  | apiError (code : Nat) (msg : String)
  | created (imageId : Nat)
deriving DecidableEq

/-- The HTTP status of an api_upload response. -/
def ApiResult.status : ApiResult → Nat
  | .apiError code _ => code
  | .created _ => 201

/-- POST /api/upload of src/app.py: missing file or failed validation answer
400 and leave the table alone; otherwise insert and maintain the limit. -/
def api_upload (allowed : List (List Char)) (db : List Row) (freshId now : Nat)
    (file : Option UFile) : List Row × ApiResult :=
  match file with
  | none => (db, .apiError 400 ("No file provided"))
  | some f =>
    let v := validate_image allowed (some f)
    if v.valid then (uploadStep db (mkUploadRow freshId f now), .created freshId)
    else (db, .apiError 400 v.message)

/-- Response of POST /delete/(id): the route always redirects to the index,
flashing a message (success even when no row matched). -/
inductive DeleteResult where
  | redirectIndex (flashMsg : String)
deriving DecidableEq

/-- delete_image of src/app.py: DELETE FROM images WHERE id = image_id, then
flash success and redirect to the index. -/
def delete_image (db : List Row) (image_id : Nat) : List Row × DeleteResult :=
  (db.filter (fun r => decide (r.id ≠ image_id)),
   .redirectIndex ("Image deleted successfully!"))

/-- total_pages of the index route: (total_images + per_page - 1) // per_page. -/
def index_total_pages (total perPage : Nat) : Nat := (total + perPage - 1) / perPage

/-- Modelled from the spec: the number of pages the spec promises, namely
ceil(total/page_size), written with floor division and a remainder bump. -/
def ceil_div_spec (total perPage : Nat) : Nat :=
  total / perPage + (if total % perPage = 0 then 0 else 1)

/-- The rows the index route renders for a page: SELECT ... ORDER BY
upload_date DESC LIMIT per_page OFFSET (page - 1) * per_page. -/
def index_page_rows (db : List Row) (page perPage : Nat) : List Row :=
  ((sortByDateDesc db).drop ((page - 1) * perPage)).take perPage

/-- A sequence of successful uploads through POST /upload or
POST /api/upload applied to the initially empty table: each upload inserts
its row and then maintain_image_limit runs. -/
def uploadFold (rows : List Row) : List Row := rows.foldl uploadStep []

/-- The row the populate worker inserts on the SQLite path: image_data is
the base64 TEXT img_base64, not binary bytes. -/
def mkSqlitePopulateRow (id : Nat) (filename img_base64 caption : List Char) (now : Nat) : Row :=
  ⟨id, filename, .text img_base64, ['i','m','a','g','e','/','j','p','e','g'],
   some (['L','A','I','O','N',':',' '] ++ caption), now⟩

/-- The row the populate worker inserts on the PostgreSQL path: image_data
is the binary base64.b64decode(img_base64). -/
def mkPostgresPopulateRow (id : Nat) (filename : List Char) (img_binary : List Nat)
    (caption : List Char) (now : Nat) : Row :=
  ⟨id, filename, .binary img_binary, ['i','m','a','g','e','/','j','p','e','g'],
   some (['L','A','I','O','N',':',' '] ++ caption), now⟩

/-- The table effect of one successful save inside populate_images: a plain
INSERT followed by commit.  The worker never calls maintain_image_limit. -/
def sqlite_populate_insert (db : List Row) (id : Nat) (filename img_base64 caption : List Char)
    (now : Nat) : List Row :=
  db ++ [mkSqlitePopulateRow id filename img_base64 caption now]

/-- The PostgreSQL-path table effect of one successful populate save. -/
def postgres_populate_insert (db : List Row) (id : Nat) (filename : List Char)
    (img_binary : List Nat) (caption : List Char) (now : Nat) : List Row :=
  db ++ [mkPostgresPopulateRow id filename img_binary caption now]

/-- A concrete row with id and upload_date both i, used for concrete tables. -/
def mkSimpleRow (i : Nat) : Row :=
  ⟨i, ['x'], .binary [], ['t'], none, i⟩

/-- One hundred uploads with increasing timestamps and distinct ids. -/
def upRows100 : List Row := (List.range 100).map mkSimpleRow

/-- Which backend a successful connection talks to. -/
inductive DBConn where
  | postgres
  | sqlite
deriving DecidableEq

/-- Result of one get_db_connection call: the connection (None when even
SQLite fails), the value of the global USE_SQLITE after the call, and
whether the call attempted a PostgreSQL connection at all. -/
structure ConnOutcome where
  conn : Option DBConn
  use_sqlite_after : Bool
  attempted_postgres : Bool
deriving DecidableEq

/-- get_db_connection of src/app.py.  use_sqlite is the global USE_SQLITE on
entry; pg_ok and sqlite_ok say whether the respective driver connect call
succeeds.  When USE_SQLITE is false the code first tries PostgreSQL; on
failure it sets the global to true and falls through to the SQLite branch. -/
def get_db_connection (use_sqlite pg_ok sqlite_ok : Bool) : ConnOutcome :=
  if !use_sqlite then
    (if pg_ok then ⟨some .postgres, use_sqlite, true⟩
     else ⟨if sqlite_ok then some .sqlite else none, true, true⟩)
  else ⟨if sqlite_ok then some .sqlite else none, use_sqlite, false⟩

/-- A sequence of get_db_connection calls threading the USE_SQLITE global,
each call supplied with that moment's driver availability. -/
def connTrace (use_sqlite : Bool) : List (Bool × Bool) → List ConnOutcome
  | [] => []
  | (pg, sq) :: rest =>
    let o := get_db_connection use_sqlite pg sq
    o :: connTrace o.use_sqlite_after rest

/-- The populate_progress global of src/app.py. -/
structure PopulateProgress where
  current : Nat
  total : Nat
  status : String
  message : String
  uploaded : Nat
deriving DecidableEq

/-- The initial populate_progress value. -/
def initial_progress : PopulateProgress := ⟨0, 0, "idle", "", 0⟩

/-- Server-side state relevant to the populate feature: the shared progress
record and how many worker threads are currently executing populate_images. -/
structure ServerState where
  progress : PopulateProgress
  running_workers : Nat
deriving DecidableEq

/-- start_populate of src/app.py (POST /api/populate): reset the progress
record and unconditionally start a new daemon thread running
populate_images; the handler never checks whether a worker already runs. -/
def start_populate (s : ServerState) (target : Nat) : ServerState × (String × Nat) :=
  (⟨⟨0, target, "running", "Starting image population...", 0⟩,
    s.running_workers + 1⟩,
   ("started", target))

/-- A worker thread finishing its populate_images run and exiting. -/
def worker_exit (s : ServerState) : ServerState :=
  ⟨s.progress, s.running_workers - 1⟩

/-- External events touching the populate worker population. -/
inductive PopRequest where
  | start (target : Nat)
  | finish
deriving DecidableEq

/-- Effect of one event on the server state. -/
def applyRequest (s : ServerState) : PopRequest → ServerState
  | .start t => (start_populate s t).1
  | .finish => worker_exit s

/-- Effect of a sequence of events on the server state. -/
def runRequests (s : ServerState) (rs : List PopRequest) : ServerState :=
  rs.foldl applyRequest s

/-- get_populate_progress of src/app.py (GET /api/populate/progress): return
the progress record as JSON; neither the record nor the table is touched. -/
def get_populate_progress (p : PopulateProgress) (db : List Row) :
    (PopulateProgress × List Row) × PopulateProgress :=
  ((p, db), p)

/-- stop_populate of src/app.py (POST /api/populate/stop): set status to
stopped and the message to the fixed text, leaving the other progress fields
and the table alone. -/
def stop_populate (p : PopulateProgress) (db : List Row) :
    (PopulateProgress × List Row) × String :=
  ((⟨p.current, p.total, "stopped", "Population stopped by user", p.uploaded⟩, db),
   "stopped")

/-- Observable actions of the populate worker loop: starting a download of
attempt k, and inserting the row downloaded by attempt k. -/
inductive PopEvent where
  | download (k : Nat)
  | insertRow (k : Nat)
deriving DecidableEq

/-- The attempt counter an event belongs to. -/
def PopEvent.idx : PopEvent → Nat
  | .download k => k
  | .insertRow k => k

/-- The while loop of populate_images.  observe k is the value of
populate_progress status that the check at the top of iteration k reads
(another thread may have changed it between iterations); dlOk k says whether
attempt k's download, decode and database save all succeed (the loop treats
any failure alike: no insert, attempts still advances).  fuel bounds the
iterations; maxAttempts is the code's own bound, so fuel = maxAttempts is
enough.  One loop iteration is atomic: an in-flight download (and the save
that follows it) runs to completion before the next status check. -/
def populate_loop (target maxAttempts : Nat) (observe : Nat → String) (dlOk : Nat → Bool) :
    Nat → Nat → Nat → List PopEvent
  | _, _, 0 => []
  | uploaded, attempts, fuel + 1 =>
    if uploaded < target ∧ attempts < maxAttempts then
      (if observe attempts ≠ "running" then []
       else if dlOk attempts then
         PopEvent.download attempts :: PopEvent.insertRow attempts ::
           populate_loop target maxAttempts observe dlOk (uploaded + 1) (attempts + 1) fuel
       else
         PopEvent.download attempts ::
           populate_loop target maxAttempts observe dlOk uploaded (attempts + 1) fuel)
    else []

/-- A status function that reports running for the first check and stopped
from then on (a stop request arriving during the first download). -/
def obsStopAfterOne : Nat → String := fun k => if k = 0 then "running" else "stopped"

/-- A status function that always reports stopped. -/
def obsStopped : Nat → String := fun _ => "stopped"

/-- Downloads that always succeed. -/
def dlAlways : Nat → Bool := fun _ => true

instance : DecidableRel dateLT := fun a b => Nat.decLt a.upload_date b.upload_date

/-! Helper lemmas about the ORDER BY model and the 100-row cap. -/

/-- Inserting an element smaller (under the sort order) than everything in
the list puts it at the end. -/
theorem orderedInsert_of_forall_not (a : Row) :
    ∀ (m : List Row), (∀ b ∈ m, ¬ dateGE a b) →
      List.orderedInsert dateGE a m = m ++ [a]
  | [], _ => rfl
  | b :: m, h => by
    have hb : ¬ dateGE a b := h b (List.mem_cons_self b m)
    simp only [List.orderedInsert, if_neg hb, List.cons_append, List.cons.injEq, true_and]
    exact orderedInsert_of_forall_not a m (fun c hc => h c (List.mem_cons_of_mem b hc))

/-- Sorting by upload_date descending reverses a list whose upload dates
strictly increase. -/
theorem sortByDateDesc_of_ascending :
    ∀ (l : List Row), l.Pairwise dateLT → sortByDateDesc l = l.reverse
  | [], _ => rfl
  | a :: l, h => by
    rcases List.pairwise_cons.1 h with ⟨ha, hl⟩
    have ih := sortByDateDesc_of_ascending l hl
    simp only [sortByDateDesc, List.insertionSort] at ih ⊢
    rw [ih, orderedInsert_of_forall_not, List.reverse_cons]
    intro b hb
    have hbl : b ∈ l := List.mem_reverse.1 hb
    have hlt : a.upload_date < b.upload_date := ha b hbl
    exact fun hge => Nat.lt_irrefl _ (Nat.lt_of_lt_of_le hlt hge)

/-- Filtering a concatenation by membership of the id in the suffix ids
keeps exactly the suffix, provided ids never repeat. -/
theorem filter_mem_suffix_ids (pre suf : List Row)
    (hnd : (pre.map Row.id ++ suf.map Row.id).Nodup) :
    (pre ++ suf).filter (fun r => decide (r.id ∈ (suf.map Row.id).reverse)) = suf := by
  rw [List.filter_append]
  have h1 : pre.filter (fun r => decide (r.id ∈ (suf.map Row.id).reverse)) = [] := by
    refine List.filter_eq_nil_iff.2 ?_
    intro r hr hmem
    simp only [decide_eq_true_eq, List.mem_reverse] at hmem
    exact (List.disjoint_of_nodup_append hnd) (List.mem_map_of_mem Row.id hr) hmem
  have h2 : suf.filter (fun r => decide (r.id ∈ (suf.map Row.id).reverse)) = suf := by
    refine List.filter_eq_self.2 ?_
    intro r hr
    simp only [decide_eq_true_eq, List.mem_reverse]
    exact List.mem_map_of_mem Row.id hr
  rw [h1, h2, List.nil_append]

/-- On a table whose upload dates strictly increase in insertion order and
whose ids are distinct, maintain_image_limit drops everything but the last
100 inserted rows. -/
theorem maintain_image_limit_of_ascending (l : List Row)
    (hd : l.Pairwise dateLT) (hid : (l.map Row.id).Nodup) :
    maintain_image_limit l = l.drop (l.length - 100) := by
  have hkeep : ((sortByDateDesc l).take 100).map Row.id
      = ((l.drop (l.length - 100)).map Row.id).reverse := by
    rw [sortByDateDesc_of_ascending l hd, List.take_reverse, List.map_reverse]
  have hsplit := List.take_append_drop (l.length - 100) l
  have hid2 : ((l.take (l.length - 100)).map Row.id
      ++ (l.drop (l.length - 100)).map Row.id).Nodup := by
    rw [← List.map_append, hsplit]; exact hid
  simp only [maintain_image_limit]
  rw [hkeep]
  have hstep : l.filter
        (fun r => decide (r.id ∈ ((l.drop (l.length - 100)).map Row.id).reverse))
      = (l.take (l.length - 100) ++ l.drop (l.length - 100)).filter
        (fun r => decide (r.id ∈ ((l.drop (l.length - 100)).map Row.id).reverse)) := by
    rw [hsplit]
  rw [hstep]
  exact filter_mem_suffix_ids _ _ hid2

/-- A sequence of limit-maintaining uploads with strictly increasing dates
and distinct ids leaves exactly the most recent 100 rows (all of them while
there are at most 100). -/
theorem uploadFold_eq_drop (rows : List Row)
    (h1 : rows.Pairwise dateLT) (h2 : (rows.map Row.id).Nodup) :
    uploadFold rows = rows.drop (rows.length - 100) := by
  induction rows using List.reverseRecOn with
  | nil => rfl
  | append_singleton l r ih =>
    have hsub : List.Sublist l (l ++ [r]) := List.sublist_append_left l [r]
    have hdl : l.Pairwise dateLT := h1.sublist hsub
    have hil : (l.map Row.id).Nodup := h2.sublist (hsub.map Row.id)
    have ihl := ih hdl hil
    have hfold : uploadFold (l ++ [r]) = uploadStep (uploadFold l) r := by
      simp only [uploadFold, List.foldl_append, List.foldl_cons, List.foldl_nil]
    have hsubm : List.Sublist (l.drop (l.length - 100) ++ [r]) (l ++ [r]) :=
      (List.drop_sublist _ l).append_right [r]
    have hdm : (l.drop (l.length - 100) ++ [r]).Pairwise dateLT := h1.sublist hsubm
    have him : ((l.drop (l.length - 100) ++ [r]).map Row.id).Nodup :=
      h2.sublist (hsubm.map Row.id)
    rw [hfold, ihl]
    show maintain_image_limit (l.drop (l.length - 100) ++ [r]) = _
    rw [maintain_image_limit_of_ascending _ hdm him]
    rcases Nat.le_total l.length 100 with hle | hgt
    · have e1 : l.length - 100 = 0 := Nat.sub_eq_zero_of_le hle
      simp [e1]
    · have hlen : (l.drop (l.length - 100)).length = 100 := by
        rw [List.length_drop]; omega
      have e2 : (l.drop (l.length - 100) ++ [r]).length - 100 = 1 := by
        simp only [List.length_append, List.length_cons, List.length_nil, hlen]
      have e3 : (l ++ [r]).length - 100 = (l.length - 100) + 1 := by
        simp only [List.length_append, List.length_cons, List.length_nil]
        omega
      rw [e2, e3]
      rw [List.drop_append_of_le_length (by omega : (l.length - 100) + 1 ≤ l.length)]
      rw [List.drop_append_of_le_length (by rw [hlen]; omega : 1 ≤ (l.drop (l.length - 100)).length)]
      rw [List.drop_drop]

/-- The descending sort keeps the table's length. -/
theorem sortByDateDesc_length (db : List Row) : (sortByDateDesc db).length = db.length :=
  List.length_insertionSort dateGE db

/-- The code's page-count formula agrees with the ceiling of total/perPage. -/
theorem index_total_pages_eq_ceil (t p : Nat) (hp : 0 < p) :
    index_total_pages t p = ceil_div_spec t p := by
  unfold index_total_pages ceil_div_spec
  have h1 : t = p * (t / p) + t % p := (Nat.div_add_mod t p).symm
  have hrlt : t % p < p := Nat.mod_lt t hp
  rcases Nat.eq_zero_or_pos (t % p) with h0 | hpos
  · rw [if_pos h0]
    conv_lhs => rw [h1, h0, Nat.add_zero]
    rw [Nat.add_sub_assoc hp (p * (t / p)), Nat.mul_add_div hp,
      Nat.div_eq_of_lt (by omega : p - 1 < p), Nat.add_zero]
  · rw [if_neg (by omega : ¬ t % p = 0)]
    conv_lhs => rw [h1]
    rw [Nat.add_assoc, Nat.add_sub_assoc (by omega : 1 ≤ t % p + p), Nat.mul_add_div hp]
    congr 1
    refine Nat.div_eq_of_lt_le (by omega : 1 * p ≤ t % p + p - 1) ?_
    have : (1 + 1) * p = 2 * p := by ring
    rw [this]
    omega

/-- The page count over-covers the total and the previous page boundary is
strictly below it: total_pages is exactly the ceiling. -/
theorem index_total_pages_bounds (t p : Nat) (hp : 0 < p) (ht : 0 < t) :
    t ≤ index_total_pages t p * p ∧ (index_total_pages t p - 1) * p < t := by
  unfold index_total_pages
  rw [Nat.sub_one_mul]
  rw [Nat.mul_comm ((t + p - 1) / p) p]
  have h3 : p * ((t + p - 1) / p) + (t + p - 1) % p = t + p - 1 :=
    Nat.div_add_mod (t + p - 1) p
  have h4 : (t + p - 1) % p < p := Nat.mod_lt (t + p - 1) hp
  generalize p * ((t + p - 1) / p) = m at h3 ⊢
  omega

/-! Claim theorems. -/

/-- C1, counterexample: a sequence of 100 successful uploads through the
upload routes leaves all 100 rows in place, and the next insert performed by
the populate worker leaves 101 rows in the table — the populate worker never
calls maintain_image_limit, so the claimed at-most-100 invariant fails on
its insertion path. -/
theorem C1_populate_breaks_limit :
    uploadFold upRows100 = upRows100 ∧
    (sqlite_populate_insert (uploadFold upRows100) 100 ['x'] ['A'] ['c'] 100).length = 101 ∧
    ¬ (sqlite_populate_insert (uploadFold upRows100) 100 ['x'] ['A'] ['c'] 100).length ≤ 100 := by
  have hpair : upRows100.Pairwise dateLT := by
    rw [upRows100, List.pairwise_map]
    exact List.pairwise_lt_range 100
  have hids : (upRows100.map Row.id).Nodup := by
    rw [upRows100, List.map_map]
    have hcomp : Row.id ∘ mkSimpleRow = id := rfl
    rw [hcomp, List.map_id]
    exact List.nodup_range 100
  have hlen : upRows100.length = 100 := by
    rw [upRows100, List.length_map, List.length_range]
  have hfold : uploadFold upRows100 = upRows100 := by
    rw [uploadFold_eq_drop upRows100 hpair hids, hlen, Nat.sub_self, List.drop_zero]
  refine ⟨hfold, ?_, ?_⟩
  · rw [sqlite_populate_insert, List.length_append, hfold, hlen, List.length_cons,
      List.length_nil]
  · rw [sqlite_populate_insert, List.length_append, hfold, hlen, List.length_cons,
      List.length_nil]
    omega

/-- C1 (amended): both upload routes insert and then run
maintain_image_limit, so for any sequence of successful uploads with
strictly increasing timestamps and fresh ids the table holds exactly the
min(n, 100) most recently uploaded rows — in particular at most 100 — while
an insert performed by the populate worker grows the table unconditionally,
enforcing no limit. -/
theorem C1_upload_routes_keep_latest_100 (rows : List Row)
    (h1 : rows.Pairwise dateLT) (h2 : (rows.map Row.id).Nodup)
    (allowed : List (List Char)) (db : List Row) (freshId now : Nat) (f : UFile)
    (hv : (validate_image allowed (some f)).valid = true)
    (db2 : List Row) (id2 : Nat) (fn b64 cap : List Char) (now2 : Nat) :
    uploadFold rows = rows.drop (rows.length - 100) ∧
    (uploadFold rows).length = min rows.length 100 ∧
    (upload_post allowed db freshId now (some f)).1 = uploadStep db (mkUploadRow freshId f now) ∧
    (api_upload allowed db freshId now (some f)).1 = uploadStep db (mkUploadRow freshId f now) ∧
    (sqlite_populate_insert db2 id2 fn b64 cap now2).length = db2.length + 1 := by
  refine ⟨uploadFold_eq_drop rows h1 h2, ?_, ?_, ?_, ?_⟩
  · rw [uploadFold_eq_drop rows h1 h2, List.length_drop]
    omega
  · simp [upload_post, hv]
  · simp [api_upload, hv]
  · rw [sqlite_populate_insert, List.length_append, List.length_cons, List.length_nil]

/-- C1 witness: the amended statement evaluated on a concrete two-upload
history, a concrete valid file and a concrete populate insert. -/
theorem C1_upload_routes_keep_latest_100_witness :
    uploadFold [mkSimpleRow 0, mkSimpleRow 1]
      = [mkSimpleRow 0, mkSimpleRow 1].drop ([mkSimpleRow 0, mkSimpleRow 1].length - 100) :=
  (C1_upload_routes_keep_latest_100 [mkSimpleRow 0, mkSimpleRow 1] (by decide) (by decide)
    [['j','p','g']] [] 1 0 ⟨['a','.','j','p','g'], [7], ['t'], true⟩ (by decide)
    [] 2 ['f'] ['A'] ['c'] 5).1

/-- C2: the gallery computes ceil(total/per_page) pages; page n holds the
rows of the descending-by-date order at offset (n-1)*per_page, at most
per_page of them, still in descending order, drawn from a permutation of
the table; and the last page holds exactly the remainder. -/
theorem C2_pagination (db : List Row) (perPage page : Nat) (hp : 0 < perPage) :
    index_total_pages db.length perPage = ceil_div_spec db.length perPage ∧
    (index_page_rows db page perPage).length
      = min perPage (db.length - (page - 1) * perPage) ∧
    List.Sorted dateGE (index_page_rows db page perPage) ∧
    index_page_rows db page perPage
      = ((sortByDateDesc db).drop ((page - 1) * perPage)).take perPage ∧
    (sortByDateDesc db).Perm db ∧
    (0 < db.length →
      (index_page_rows db (index_total_pages db.length perPage) perPage).length
        = db.length - (index_total_pages db.length perPage - 1) * perPage) := by
  have hlen : ∀ n, (index_page_rows db n perPage).length
      = min perPage (db.length - (n - 1) * perPage) := by
    intro n
    rw [index_page_rows, List.length_take, List.length_drop, sortByDateDesc_length]
  refine ⟨index_total_pages_eq_ceil db.length perPage hp, hlen page, ?_, rfl,
    List.perm_insertionSort dateGE db, ?_⟩
  · have hs : List.Sorted dateGE (sortByDateDesc db) :=
      List.sorted_insertionSort dateGE db
    exact hs.sublist ((List.take_sublist _ _).trans (List.drop_sublist _ _))
  · intro ht
    rcases index_total_pages_bounds db.length perPage hp ht with ⟨b1, b2⟩
    rw [hlen]
    rw [Nat.sub_one_mul] at b2 ⊢
    generalize index_total_pages db.length perPage * perPage = m at b1 b2 ⊢
    omega

/-- C2 witness: a three-row table with page size 2 has its last page holding
the single remaining row. -/
theorem C2_pagination_witness :
    (index_page_rows [mkSimpleRow 0, mkSimpleRow 1, mkSimpleRow 2]
        (index_total_pages [mkSimpleRow 0, mkSimpleRow 1, mkSimpleRow 2].length 2) 2).length
      = [mkSimpleRow 0, mkSimpleRow 1, mkSimpleRow 2].length
        - (index_total_pages [mkSimpleRow 0, mkSimpleRow 1, mkSimpleRow 2].length 2 - 1) * 2 :=
  (C2_pagination [mkSimpleRow 0, mkSimpleRow 1, mkSimpleRow 2] 2 2 (by decide)).2.2.2.2.2
    (by decide)

/-- C3: an upload whose filename extension is not in ALLOWED_EXTENSIONS is
rejected by both routes — the HTML route flashes an error, the JSON route
answers 400 — and neither inserts a row. -/
theorem C3_disallowed_extension_rejected (allowed : List (List Char)) (db : List Row)
    (freshId now : Nat) (f : UFile)
    (h : file_extension f.filename ∉ allowed) :
    (upload_post allowed db freshId now (some f)).1 = db ∧
    ((upload_post allowed db freshId now (some f)).2).isError = true ∧
    (api_upload allowed db freshId now (some f)).1 = db ∧
    ((api_upload allowed db freshId now (some f)).2).status = 400 := by
  have hv : (validate_image allowed (some f)).valid = false := by
    rw [validate_image]
    by_cases hf : f.filename = []
    · rw [if_pos hf]
    · rw [if_neg hf, if_neg h]
  refine ⟨?_, ?_, ?_, ?_⟩ <;>
    simp [upload_post, api_upload, hv, UploadResult.isError, ApiResult.status]

/-- C3 witness: a txt upload against the jpg-only configuration is turned
away by both routes without touching the empty table. -/
theorem C3_disallowed_extension_rejected_witness :
    (upload_post [['j','p','g']] [] 1 0 (some ⟨['a','.','t','x','t'], [7], ['t'], true⟩)).1
      = [] :=
  (C3_disallowed_extension_rejected [['j','p','g']] [] 1 0
    ⟨['a','.','t','x','t'], [7], ['t'], true⟩ (by decide)).1

/-- C4: deleting an id that is not in the table leaves the table unchanged
and still answers with the success flash and a redirect to the index. -/
theorem C4_delete_missing_id_noop (db : List Row) (image_id : Nat)
    (h : image_id ∉ db.map Row.id) :
    (delete_image db image_id).1 = db ∧
    (delete_image db image_id).2 = DeleteResult.redirectIndex ("Image deleted successfully!") := by
  refine ⟨?_, rfl⟩
  simp only [delete_image]
  refine List.filter_eq_self.2 ?_
  intro r hr
  simp only [decide_eq_true_eq]
  intro he
  exact h (he ▸ List.mem_map_of_mem Row.id hr)

/-- C4 witness: deleting id 5 from a table holding only id 1 changes
nothing. -/
theorem C4_delete_missing_id_noop_witness :
    (delete_image [mkSimpleRow 1] 5).1 = [mkSimpleRow 1] :=
  (C4_delete_missing_id_noop [mkSimpleRow 1] 5 (by decide)).1

/-- Once the USE_SQLITE global is true, every call connects straight to
SQLite and never attempts PostgreSQL. -/
theorem connTrace_sqlite_only :
    ∀ (calls : List (Bool × Bool)) (o : ConnOutcome), o ∈ connTrace true calls →
      o.attempted_postgres = false ∧ o.conn ≠ some DBConn.postgres := by
  intro calls
  induction calls with
  | nil =>
    intro o ho
    exact absurd ho (List.not_mem_nil o)
  | cons c rest ih =>
    intro o ho
    obtain ⟨pg, sq⟩ := c
    have hhead : get_db_connection true pg sq
        = ⟨if sq then some DBConn.sqlite else none, true, false⟩ := rfl
    simp only [connTrace, hhead] at ho
    rcases List.mem_cons.1 ho with h | h
    · subst h
      refine ⟨rfl, ?_⟩
      cases sq <;> simp
    · exact ih o h

/-- C5: with a PostgreSQL configuration whose connection attempt fails, the
call falls back to SQLite (flipping the USE_SQLITE global) and returns a
SQLite connection, having attempted PostgreSQL this once; from then on every
call goes to SQLite directly — it never attempts PostgreSQL again, whatever
the availability of either backend. -/
theorem C5_postgres_fallback_once (rest : List (Bool × Bool)) (o : ConnOutcome) (pg2 : Bool)
    (ho : o ∈ connTrace true rest) :
    (get_db_connection false false true).conn = some DBConn.sqlite ∧
    (get_db_connection false false true).use_sqlite_after = true ∧
    (get_db_connection false false true).attempted_postgres = true ∧
    o.attempted_postgres = false ∧
    o.conn ≠ some DBConn.postgres ∧
    (get_db_connection true pg2 true).conn = some DBConn.sqlite ∧
    (get_db_connection true pg2 true).attempted_postgres = false :=
  ⟨rfl, rfl, rfl, (connTrace_sqlite_only rest o ho).1, (connTrace_sqlite_only rest o ho).2,
    rfl, rfl⟩

/-- C5 witness: the fallback call itself, followed by one ordinary call. -/
theorem C5_postgres_fallback_once_witness :
    (get_db_connection false false true).conn = some DBConn.sqlite :=
  (C5_postgres_fallback_once [(true, true)] (get_db_connection true true true) true
    (by decide)).1

/-- Every event of the populate loop belongs to an attempt strictly before
any attempt index at which the observed status is not running. -/
theorem populate_loop_stops (target maxA : Nat) (observe : Nat → String) (dlOk : Nat → Bool) :
    ∀ (fuel uploaded attempts j : Nat), attempts ≤ j → observe j ≠ "running" →
      ∀ ev ∈ populate_loop target maxA observe dlOk uploaded attempts fuel, ev.idx < j := by
  intro fuel
  induction fuel with
  | zero =>
    intro uploaded attempts j h1 h2 ev hev
    exact absurd hev (List.not_mem_nil ev)
  | succ fuel ih =>
    intro uploaded attempts j h1 h2 ev hev
    simp only [populate_loop] at hev
    by_cases hc : uploaded < target ∧ attempts < maxA
    · rw [if_pos hc] at hev
      by_cases hs : observe attempts ≠ "running"
      · rw [if_pos hs] at hev
        exact absurd hev (List.not_mem_nil ev)
      · rw [if_neg hs] at hev
        have hne : attempts ≠ j := fun e => hs (e ▸ h2)
        have hlt : attempts < j := Nat.lt_of_le_of_ne h1 hne
        by_cases hd : dlOk attempts = true
        · rw [if_pos hd] at hev
          rcases List.mem_cons.1 hev with he | hev2
          · subst he; exact hlt
          · rcases List.mem_cons.1 hev2 with he | hev3
            · subst he; exact hlt
            · exact ih (uploaded + 1) (attempts + 1) j hlt h2 ev hev3
        · rw [if_neg hd] at hev
          rcases List.mem_cons.1 hev with he | hev2
          · subst he; exact hlt
          · exact ih uploaded (attempts + 1) j hlt h2 ev hev2
    · rw [if_neg hc] at hev
      exact absurd hev (List.not_mem_nil ev)

/-- When the check at the top of an iteration sees a status other than
running, the loop performs nothing further and exits. -/
theorem populate_loop_exit (target maxA : Nat) (observe : Nat → String) (dlOk : Nat → Bool)
    (uploaded attempts fuel : Nat) (h : observe attempts ≠ "running") :
    populate_loop target maxA observe dlOk uploaded attempts fuel = [] := by
  cases fuel with
  | zero => rfl
  | succ fuel =>
    simp only [populate_loop]
    by_cases hc : uploaded < target ∧ attempts < maxA
    · rw [if_pos hc, if_pos h]
    · rw [if_neg hc]

/-- C6: the worker checks the status flag at the top of each iteration.  If
the status observed at attempt j is not running, no download or insert of
attempt j or later ever happens, and an iteration whose own check sees a
non-running status produces nothing and exits the loop.  An iteration whose
check passed runs its download (and save) to completion before the next
check. -/
theorem C6_stop_is_cooperative (target maxA : Nat) (observe : Nat → String) (dlOk : Nat → Bool)
    (uploaded attempts fuel j : Nat) (ev : PopEvent)
    (h1 : attempts ≤ j) (h2 : observe j ≠ "running")
    (hev : ev ∈ populate_loop target maxA observe dlOk uploaded attempts fuel) :
    ev.idx < j ∧
    (observe attempts ≠ "running" →
      populate_loop target maxA observe dlOk uploaded attempts fuel = []) :=
  ⟨populate_loop_stops target maxA observe dlOk fuel uploaded attempts j h1 h2 ev hev,
   fun h => populate_loop_exit target maxA observe dlOk uploaded attempts fuel h⟩

/-- C6 witness: with a stop observed from the second check on, the loop only
ever acts on attempt 0. -/
theorem C6_stop_is_cooperative_witness :
    (PopEvent.download 0).idx < 1 :=
  (C6_stop_is_cooperative 5 5 obsStopAfterOne dlAlways 0 0 5 1 (PopEvent.download 0)
    (by decide) (by decide) (by decide)).1

/-- C7, counterexample: on the SQLite path the populate worker stores the
base64 text, not binary bytes, in image_data — the inserted row's payload is
not binary, refuting the claim for the populate insertion path. -/
theorem C7_sqlite_populate_stores_text :
    ¬ (∀ r ∈ sqlite_populate_insert [] 1 ['f'] ['A'] ['c'] 0,
        r.image_data.isBinary = true) := by
  decide

/-- C7 (amended): rows inserted by the upload routes and by the populate
worker's PostgreSQL path carry binary payloads, while the populate worker's
SQLite path stores the base64 text string in image_data (the gallery route
copes by checking the stored type); all paths fill filename, content type,
optional description and the insertion timestamp. -/
theorem C7_payload_binary_except_sqlite_populate (id : Nat) (f : UFile) (now : Nat)
    (id2 : Nat) (fn : List Char) (img : List Nat) (cap : List Char) (now2 : Nat)
    (id3 : Nat) (fn3 b64 cap3 : List Char) (now3 : Nat) :
    (mkUploadRow id f now).image_data.isBinary = true ∧
    (mkPostgresPopulateRow id2 fn img cap now2).image_data.isBinary = true ∧
    (mkSqlitePopulateRow id3 fn3 b64 cap3 now3).image_data.isBinary = false ∧
    (mkSqlitePopulateRow id3 fn3 b64 cap3 now3).image_data = ImgPayload.text b64 ∧
    (mkUploadRow id f now).upload_date = now ∧
    (mkSqlitePopulateRow id3 fn3 b64 cap3 now3).description
      = some (['L','A','I','O','N',':',' '] ++ cap3) :=
  ⟨rfl, rfl, rfl, rfl, rfl, rfl⟩

/-- C8, counterexample: two POST /api/populate requests with no worker exit
in between leave two worker threads executing the populate loop at once, so
the at-most-one-worker claim fails. -/
theorem C8_two_workers_after_two_starts :
    (runRequests ⟨initial_progress, 0⟩
        [PopRequest.start 20, PopRequest.start 20]).running_workers = 2 ∧
    ¬ (runRequests ⟨initial_progress, 0⟩
        [PopRequest.start 20, PopRequest.start 20]).running_workers ≤ 1 := by
  decide

/-- C8 (amended): start_populate spawns a fresh worker thread on every
request, without checking whether one is already running; k overlapping
start requests therefore leave k concurrent workers. -/
theorem C8_start_spawns_unconditionally (s : ServerState) (target : Nat) :
    (start_populate s target).1.running_workers = s.running_workers + 1 ∧
    (start_populate s target).1.progress.status = "running" ∧
    (start_populate s target).2 = ("started", target) :=
  ⟨rfl, rfl, rfl⟩

/-- C9, counterexample: with ALLOWED_EXTENSIONS configured as the string
jpg-comma (a trailing comma), splitting yields an empty entry, so the empty
extension of a dotless filename IS in the allowed set: the upload is not
rejected and the bytes are decoded, refuting the claim's never. -/
theorem C9_empty_extension_can_be_allowed :
    file_extension ['p','h','o','t','o'] = [] ∧
    [] ∈ allowedExtensionsOf ['j','p','g',','] ∧
    (validate_image (allowedExtensionsOf ['j','p','g',','])
        (some ⟨['p','h','o','t','o'], [0], ['t'], true⟩)).decode_attempted = true ∧
    (validate_image (allowedExtensionsOf ['j','p','g',','])
        (some ⟨['p','h','o','t','o'], [0], ['t'], true⟩)).valid = true := by
  decide

/-- C9 (amended): a dotless filename gets the empty extension, and as long
as the configured extension list has no empty entry (true of the default
jpg,jpeg,png,gif), such an upload is rejected with the invalid-file-type
message before any decoding; a missing or empty filename is rejected with
the No-file-selected message. -/
theorem C9_dotless_rejected_when_no_empty_entry (allowed : List (List Char)) (f g : UFile)
    (hdot : '.' ∉ f.filename) (hne : f.filename ≠ [])
    (hempty : [] ∉ allowed) (hg : g.filename = []) :
    file_extension f.filename = [] ∧
    validate_image allowed (some f) = ⟨false, invalid_type_message allowed, false⟩ ∧
    validate_image allowed none = ⟨false, "No file selected", false⟩ ∧
    validate_image allowed (some g) = ⟨false, "No file selected", false⟩ := by
  have hext : file_extension f.filename = [] := by
    rw [file_extension, if_neg hdot]
  refine ⟨hext, ?_, rfl, ?_⟩
  · simp only [validate_image]
    rw [if_neg hne, hext, if_neg hempty]
  · simp only [validate_image]
    rw [if_pos hg]

/-- C9 witness: the amended rejection on a concrete dotless filename under
the jpg-only configuration. -/
theorem C9_dotless_rejected_when_no_empty_entry_witness :
    validate_image [['j','p','g']] (some ⟨['p','h','o','t','o'], [0], ['t'], true⟩)
      = ⟨false, invalid_type_message [['j','p','g']], false⟩ :=
  (C9_dotless_rejected_when_no_empty_entry [['j','p','g']]
    ⟨['p','h','o','t','o'], [0], ['t'], true⟩ ⟨[], [], [], true⟩
    (by decide) (by decide) (by decide) rfl).2.1

/-- C10: the progress route returns the record and changes nothing, and the
stop route sets exactly status and message, leaving current, total, uploaded
and the images table untouched. -/
theorem C10_progress_routes_frame (p : PopulateProgress) (db : List Row) :
    (get_populate_progress p db).1 = (p, db) ∧
    (get_populate_progress p db).2 = p ∧
    ((stop_populate p db).1.1).status = "stopped" ∧
    ((stop_populate p db).1.1).message = "Population stopped by user" ∧
    ((stop_populate p db).1.1).current = p.current ∧
    ((stop_populate p db).1.1).total = p.total ∧
    ((stop_populate p db).1.1).uploaded = p.uploaded ∧
    (stop_populate p db).1.2 = db ∧
    (stop_populate p db).2 = "stopped" :=
  ⟨rfl, rfl, rfl, rfl, rfl, rfl, rfl, rfl, rfl⟩

end Pwebby
